import Mathlib

/-!
Shallow embedding of the snake simulation engine (src/engine.py).

Randomness (Python random.randint / random.choice) is modelled by explicit
draw lists threaded through the functions; the rejection-sampling while
loops become list-consuming samplers that return none when the supply of
draws is exhausted (which also models non-termination of the source loop,
since the source would just keep drawing).
-/

/-- Grid positions, Python int pairs (may be negative before bounds checks). -/
abbrev Pos := Int × Int

/-- The four travel directions, keys of the DIR dict in src/engine.py. -/
inductive Dir where
  | UP
  | DOWN
  | LEFT
  | RIGHT
deriving DecidableEq

/-- The DIR dict: unit vector of each direction. -/
def DIR : Dir → Int × Int
  | Dir.UP => (0, -1)
  | Dir.DOWN => (0, 1)
  | Dir.LEFT => (-1, 0)
  | Dir.RIGHT => (1, 0)

/-- The OPPOSITE dict of src/engine.py. -/
def OPPOSITE : Dir → Dir
  | Dir.UP => Dir.DOWN
  | Dir.DOWN => Dir.UP
  | Dir.LEFT => Dir.RIGHT
  | Dir.RIGHT => Dir.LEFT

/-- The mutable state dict returned by init_board: snake (head first),
greens (list of two cells), red (always a cell in the source), head_dir,
game_over. -/
structure GameState where
  snake : List Pos
  greens : List Pos
  red : Pos
  head_dir : Dir
  game_over : Bool
deriving DecidableEq

/-- Cell one step from p in direction d: p + DIR[d]. -/
def nextPos (p : Pos) (d : Dir) : Pos :=
  (p.1 + (DIR d).1, p.2 + (DIR d).2)

/-- The collision test of src/engine.py line 66 (and the identical bounds
tests in place_snake and the head-direction validation of init_board):
n out of [0, grid_size) on either axis, or on a snake cell. -/
abbrev collides (grid_size : Int) (snake : List Pos) (n : Pos) : Prop :=
  n.1 < 0 ∨ grid_size ≤ n.1 ∨ n.2 < 0 ∨ grid_size ≤ n.2 ∨ n ∈ snake

/-- A cell producible by random.randint(0, grid_size - 1) on both axes. -/
abbrev inRange (grid_size : Int) (p : Pos) : Prop :=
  0 ≤ p.1 ∧ p.1 < grid_size ∧ 0 ≤ p.2 ∧ p.2 < grid_size

/-- Rejection sampling: first draw in the list not satisfying bad; none when
the draws run out (the source would keep redrawing). -/
def sampleUntil {α : Type} (bad : α → Prop) [DecidablePred bad] : List α → Option α
  | [] => none
  | c :: rest => if bad c then sampleUntil bad rest else some c

/-- Rejection sampling that also returns the unconsumed draws. -/
def sampleUntilR {α : Type} (bad : α → Prop) [DecidablePred bad] :
    List α → Option (α × List α)
  | [] => none
  | c :: rest => if bad c then sampleUntilR bad rest else some (c, rest)

/-- step_forward of src/engine.py lines 58-89. The head of an empty snake
would raise IndexError in the source (modelled as none). Note the source
performs no game_over check, the replacement-item loops test membership in
the pre-move snake, and in the red branch the red cell is reassigned before
the length-1 check. -/
def step_forward (grid_size : Int) (state : GameState) (draws : List Pos) :
    Option GameState :=
  match state.snake with
  | [] => none
  | p :: _ =>
    if collides grid_size state.snake (nextPos p state.head_dir) then
      some { state with game_over := true }
    else if nextPos p state.head_dir ∈ state.greens then
      match sampleUntil (fun g =>
          (g ∈ state.greens.erase (nextPos p state.head_dir) ∨ g ∈ state.snake) ∧
          ((state.snake.length : Int) ≠ grid_size * grid_size)) draws with
      | none => none
      | some g =>
        some { state with
                greens := state.greens.erase (nextPos p state.head_dir) ++ [g]
                snake := nextPos p state.head_dir :: state.snake }
    else if state.red = nextPos p state.head_dir then
      match sampleUntil (fun r =>
          (r ∈ state.greens ∨ r ∈ state.snake) ∧
          ((state.snake.length : Int) ≠ grid_size * grid_size)) draws with
      | none => none
      | some r =>
        if state.snake.length = 1 then
          some { state with red := r, game_over := true }
        else
          some { state with
                  red := r
                  snake := nextPos p state.head_dir :: state.snake.dropLast.dropLast }
    else
      some { state with snake := nextPos p state.head_dir :: state.snake.dropLast }

/-- Delta-to-direction lookup loop of get_neck_dir (src/engine.py 99-102). -/
def dir_from_delta (d : Int × Int) : Option Dir :=
  if d = DIR Dir.UP then some Dir.UP
  else if d = DIR Dir.DOWN then some Dir.DOWN
  else if d = DIR Dir.LEFT then some Dir.LEFT
  else if d = DIR Dir.RIGHT then some Dir.RIGHT
  else none

/-- get_neck_dir of src/engine.py lines 91-102: direction from head to neck,
none when the snake is shorter than 2 (Python None). -/
def get_neck_dir (snake : List Pos) : Option Dir :=
  match snake with
  | h :: nck :: _ => dir_from_delta (nck.1 - h.1, nck.2 - h.2)
  | _ => none

/-- change_dir of src/engine.py lines 104-107. The source compares the
requested direction with get_neck_dir's result, which may be Python None;
a Dir is never equal to None, hence the Option comparison. -/
def change_dir (state : GameState) (new_dir : Dir) : GameState :=
  if get_neck_dir state.snake ≠ some new_dir then
    { state with head_dir := new_dir }
  else
    state

/-- One iteration of the for loop in place_snake (src/engine.py 45-52):
extend the walk by one cell from the current tail end, redrawing the
direction while the candidate cell is out of bounds or on the snake. -/
def extend_snake (grid_size : Int) (snake : List Pos) (dirs : List Dir) :
    Option (List Pos × List Dir) :=
  match snake.getLast? with
  | none => none
  | some q =>
    match sampleUntilR (fun d => collides grid_size snake (nextPos q d)) dirs with
    | none => none
    | some (d, rest) => some (snake ++ [nextPos q d], rest)

/-- place_snake of src/engine.py lines 40-56: retry a 3-cell self-avoiding
walk until it is disjoint from the three item cells. Each retry consumes one
position draw (the head) and some direction draws. -/
def place_snake (green1 green2 red : Pos) (grid_size : Int) :
    List Pos → List Dir → Option (List Pos × List Pos × List Dir)
  | [], _ => none
  | h :: posRest, dirs =>
    match extend_snake grid_size [h] dirs with
    | none => none
    | some (s1, dirs1) =>
      match extend_snake grid_size s1 dirs1 with
      | none => none
      | some (s2, dirs2) =>
        if green1 ∉ s2 ∧ green2 ∉ s2 ∧ red ∉ s2 then some (s2, posRest, dirs2)
        else place_snake green1 green2 red grid_size posRest dirs2

/-- The head-direction validity test of init_board (src/engine.py 27-29):
moving one step from the head goes out of bounds or hits the snake. -/
def head_invalid (grid_size : Int) (snake : List Pos) (d : Dir) : Prop :=
  match snake with
  | [] => True
  | q :: rest => collides grid_size (q :: rest) (nextPos q d)

instance (grid_size : Int) (snake : List Pos) (d : Dir) :
    Decidable (head_invalid grid_size snake d) :=
  match snake with
  | [] => isTrue trivial
  | q :: rest => (inferInstance : Decidable (collides grid_size (q :: rest) (nextPos q d)))

/-- The head-direction retry loop of init_board (src/engine.py 27-30):
keep the candidate if valid, else redraw uniformly among the 4 directions. -/
def pick_head_dir (grid_size : Int) (snake : List Pos) : Dir → List Dir → Option Dir
  | d, [] => if head_invalid grid_size snake d then none else some d
  | d, d2 :: rest =>
    if head_invalid grid_size snake d then pick_head_dir grid_size snake d2 rest
    else some d

/-- init_board of src/engine.py lines 12-38: draw two distinct greens, a red
distinct from both, a 3-cell snake disjoint from the items, and a validated
head direction starting from the opposite of the neck direction. -/
def init_board (grid_size : Int) (posDraws : List Pos) (dirDraws : List Dir) :
    Option GameState :=
  match posDraws with
  | [] => none
  | green1 :: rest1 =>
    match sampleUntilR (fun g => g = green1) rest1 with
    | none => none
    | some (green2, rest2) =>
      match sampleUntilR (fun r => r = green1 ∨ r = green2) rest2 with
      | none => none
      | some (red, rest3) =>
        match place_snake green1 green2 red grid_size rest3 dirDraws with
        | none => none
        | some (snake, _, dirs2) =>
          match get_neck_dir snake with
          | none => none
          | some nd =>
            match pick_head_dir grid_size snake (OPPOSITE nd) dirs2 with
            | none => none
            | some hd =>
              some ⟨snake, [green1, green2], red, hd, false⟩

/-- All draws in the list are producible by random.randint on this grid. -/
abbrev drawsInRange (grid_size : Int) (draws : List Pos) : Prop :=
  ∀ p ∈ draws, inRange grid_size p

/-- States reachable by an actual program run: an init_board call followed by
any sequence of step_forward and change_dir calls, with every random draw in
range for the grid. -/
inductive Reachable (grid_size : Int) : GameState → Prop where
  | init : ∀ pd dd s, drawsInRange grid_size pd → init_board grid_size pd dd = some s →
      Reachable grid_size s
  | step : ∀ s draws s2, Reachable grid_size s → drawsInRange grid_size draws →
      step_forward grid_size s draws = some s2 → Reachable grid_size s2
  | dir : ∀ s d, Reachable grid_size s → Reachable grid_size (change_dir s d)

/-- State produced by init_board 10 with draws (0,0), (5,4), (9,9), (5,5) and
walk directions DOWN, DOWN: the scenario snake of spec section 8 with a green
on the cell in front of the head. -/
def s0C2 : GameState :=
  ⟨[(5, 5), (5, 6), (5, 7)], [(0, 0), (5, 4)], (9, 9), Dir.UP, false⟩

/-- State after step_forward on s0C2 when the replacement draw for the eaten
green is (5,4): the relocated green sits on the new head cell. -/
def s1C2 : GameState :=
  ⟨[(5, 4), (5, 5), (5, 6), (5, 7)], [(0, 0), (5, 4)], (9, 9), Dir.UP, false⟩

/-- A terminal state whose pending move is into a free cell. -/
def termState : GameState := ⟨[(0, 0)], [(3, 3), (4, 4)], (2, 2), Dir.DOWN, true⟩

/-- A terminal state whose pending move collides with the wall. -/
def termWallState : GameState :=
  ⟨[(0, 0), (0, 1)], [(3, 3), (4, 4)], (2, 2), Dir.UP, true⟩

/-- A running state about to eat the red item with a length-3 snake. -/
def cState : GameState :=
  ⟨[(5, 5), (5, 6), (5, 7)], [(0, 0), (1, 1)], (5, 4), Dir.UP, false⟩

/-- Result of step_forward on cState with replacement draw (9,9). -/
def cStateAfter : GameState :=
  ⟨[(5, 4), (5, 5)], [(0, 0), (1, 1)], (9, 9), Dir.UP, false⟩

/-- A state on the 2-by-2 grid whose snake list has length 4 = gridSize²
(it contains a duplicate), about to eat the green at (1,0). -/
def fullState : GameState :=
  ⟨[(0, 0), (0, 1), (1, 1), (0, 1)], [(1, 0)], (0, 1), Dir.RIGHT, false⟩

/-- Result of step_forward on fullState with draw (0,0): the green is
replaced by the unchecked first draw, not removed. -/
def fullStateAfter : GameState :=
  ⟨[(1, 0), (0, 0), (0, 1), (1, 1), (0, 1)], [(0, 0)], (0, 1), Dir.RIGHT, false⟩

/-- A state on the 2-by-2 grid whose snake list has length 4 = gridSize²,
about to eat the red item at (1,0). -/
def redFullState : GameState :=
  ⟨[(0, 0), (0, 1), (1, 1), (0, 1)], [(0, 1)], (1, 0), Dir.RIGHT, false⟩

/-- A running state with a single-segment snake. -/
def shortState : GameState := ⟨[(0, 0)], [(3, 3), (4, 4)], (2, 2), Dir.UP, false⟩

/-- A running state in the plain-move case: the cell in front of the head is
free and carries no item. -/
def plainState : GameState :=
  ⟨[(5, 5), (5, 6), (5, 7)], [(0, 0), (1, 1)], (9, 9), Dir.UP, false⟩

lemma sampleUntil_some {α : Type} (bad : α → Prop) [DecidablePred bad] :
    ∀ l c, sampleUntil bad l = some c → ¬ bad c := by
  intro l
  induction l with
  | nil => intro c h; simp [sampleUntil] at h
  | cons a t ih =>
    intro c h
    by_cases hb : bad a
    · rw [sampleUntil, if_pos hb] at h
      exact ih c h
    · rw [sampleUntil, if_neg hb] at h
      injection h with h2
      subst h2
      exact hb

lemma sampleUntilR_some {α : Type} (bad : α → Prop) [DecidablePred bad] :
    ∀ l c rest, sampleUntilR bad l = some (c, rest) → ¬ bad c := by
  intro l
  induction l with
  | nil => intro c rest h; simp [sampleUntilR] at h
  | cons a t ih =>
    intro c rest h
    by_cases hb : bad a
    · rw [sampleUntilR, if_pos hb] at h
      exact ih c rest h
    · rw [sampleUntilR, if_neg hb] at h
      injection h with h2
      rw [Prod.mk.injEq] at h2
      obtain ⟨h3, _⟩ := h2
      subst h3
      exact hb

lemma sampleUntilR_none_of_all {α : Type} (bad : α → Prop) [DecidablePred bad] :
    ∀ l, (∀ x ∈ l, bad x) → sampleUntilR bad l = none := by
  intro l
  induction l with
  | nil => intro _; rfl
  | cons a t ih =>
    intro h
    rw [sampleUntilR, if_pos (h a (List.mem_cons_self a t))]
    exact ih (fun x hx => h x (List.mem_cons_of_mem a hx))

lemma extend_snake_some (grid_size : Int) (snake : List Pos) (dirs : List Dir)
    (sn2 : List Pos) (rest : List Dir)
    (h : extend_snake grid_size snake dirs = some (sn2, rest)) :
    ∃ c, sn2 = snake ++ [c] ∧ c ∉ snake := by
  unfold extend_snake at h
  split at h
  · cases h
  · next q hq =>
    split at h
    · cases h
    · next d r hs =>
      have hbad := sampleUntilR_some _ dirs d r hs
      simp only [Option.some.injEq, Prod.mk.injEq] at h
      obtain ⟨h3, _⟩ := h
      subst h3
      refine ⟨nextPos q d, rfl, ?_⟩
      intro hmem
      exact hbad (Or.inr (Or.inr (Or.inr (Or.inr hmem))))

lemma place_snake_some (green1 green2 red : Pos) (grid_size : Int) :
    ∀ pd dirs sn posRest dirs2,
      place_snake green1 green2 red grid_size pd dirs = some (sn, posRest, dirs2) →
      sn.Nodup ∧ green1 ∉ sn ∧ green2 ∉ sn ∧ red ∉ sn := by
  intro pd
  induction pd with
  | nil => intro dirs sn pr d2 h; simp [place_snake] at h
  | cons hcell pt ih =>
    intro dirs sn pr d2 h
    rw [place_snake] at h
    split at h
    · cases h
    · next s1 dirs1 h1 =>
      split at h
      · cases h
      · next s2 dirs2b h2 =>
        split at h
        · next hd =>
          simp only [Option.some.injEq, Prod.mk.injEq] at h
          obtain ⟨h3, _, _⟩ := h
          subst h3
          obtain ⟨c1, hs1, hc1⟩ := extend_snake_some _ _ _ _ _ h1
          subst hs1
          obtain ⟨c2, hs2, hc2⟩ := extend_snake_some _ _ _ _ _ h2
          subst hs2
          refine ⟨?_, hd⟩
          simp only [List.mem_singleton] at hc1
          simp only [List.mem_append, List.mem_singleton] at hc2
          push_neg at hc2
          obtain ⟨hc2a, hc2b⟩ := hc2
          have h1s : hcell ≠ c1 := fun hx => hc1 hx.symm
          have h2s : hcell ≠ c2 := fun hx => hc2a hx.symm
          have h3s : c1 ≠ c2 := fun hx => hc2b hx.symm
          simp [List.nodup_cons, h1s, h2s, h3s, hc1, hc2a, hc2b]
        · exact ih dirs2b sn pr d2 h

lemma init_board_some_nodup (grid_size : Int) (pd : List Pos) (dd : List Dir)
    (s : GameState) (h : init_board grid_size pd dd = some s) : s.snake.Nodup := by
  unfold init_board at h
  split at h
  · cases h
  · next green1 rest1 =>
    split at h
    · cases h
    · next green2 rest2 hg2 =>
      split at h
      · cases h
      · next red rest3 hr =>
        split at h
        · cases h
        · next snake rest4 dirs2 hp =>
          split at h
          · cases h
          · next nd hn =>
            split at h
            · cases h
            · next hd hh =>
              injection h with h2
              subst h2
              exact (place_snake_some green1 green2 red grid_size rest3 dd
                snake rest4 dirs2 hp).1

lemma change_dir_snake (st : GameState) (d : Dir) :
    (change_dir st d).snake = st.snake := by
  unfold change_dir
  split <;> rfl

lemma step_forward_preserves_nodup (grid_size : Int) (st st2 : GameState)
    (draws : List Pos) (h : step_forward grid_size st draws = some st2)
    (hn : st.snake.Nodup) : st2.snake.Nodup := by
  obtain ⟨sn, gr, rd, hd, go⟩ := st
  cases sn with
  | nil => simp [step_forward] at h
  | cons p t =>
    simp only [step_forward] at h
    split at h
    · injection h with h2
      subst h2
      exact hn
    · next hcol =>
      have hnotmem : nextPos p hd ∉ p :: t :=
        fun hm => hcol (Or.inr (Or.inr (Or.inr (Or.inr hm))))
      split at h
      · split at h
        · cases h
        · next g hg =>
          injection h with h2
          subst h2
          exact List.nodup_cons.mpr ⟨hnotmem, hn⟩
      · split at h
        · split at h
          · cases h
          · next r hr =>
            split at h
            · injection h with h2
              subst h2
              exact hn
            · injection h with h2
              subst h2
              refine List.nodup_cons.mpr ⟨?_, ?_⟩
              · intro hm
                exact hnotmem
                  ((List.dropLast_sublist _).subset ((List.dropLast_sublist _).subset hm))
              · exact List.Nodup.sublist
                  ((List.dropLast_sublist _).trans (List.dropLast_sublist _)) hn
        · injection h with h2
          subst h2
          refine List.nodup_cons.mpr ⟨?_, ?_⟩
          · intro hm
            exact hnotmem ((List.dropLast_sublist _).subset hm)
          · exact List.Nodup.sublist (List.dropLast_sublist _) hn

lemma sampleUntil_first {α : Type} (bad : α → Prop) [DecidablePred bad]
    (d : α) (rest : List α) (h : ¬ bad d) : sampleUntil bad (d :: rest) = some d := by
  rw [sampleUntil, if_neg h]

lemma step_collision_eq (grid_size : Int) (state : GameState) (draws : List Pos)
    (p : Pos) (t : List Pos) (hs : state.snake = p :: t)
    (hc : collides grid_size state.snake (nextPos p state.head_dir)) :
    step_forward grid_size state draws = some { state with game_over := true } := by
  rw [hs] at hc
  simp only [step_forward, hs]
  rw [if_pos hc]

lemma step_plain_eq (grid_size : Int) (state : GameState) (draws : List Pos)
    (p : Pos) (t : List Pos) (hs : state.snake = p :: t)
    (hc : ¬ collides grid_size state.snake (nextPos p state.head_dir))
    (hg : nextPos p state.head_dir ∉ state.greens)
    (hr : state.red ≠ nextPos p state.head_dir) :
    step_forward grid_size state draws =
      some { state with snake := nextPos p state.head_dir :: state.snake.dropLast } := by
  rw [hs] at hc
  simp only [step_forward, hs]
  rw [if_neg hc, if_neg hg, if_neg hr]

lemma step_green_eq (grid_size : Int) (state : GameState) (draws : List Pos)
    (p : Pos) (t : List Pos) (g : Pos) (hs : state.snake = p :: t)
    (hc : ¬ collides grid_size state.snake (nextPos p state.head_dir))
    (hg : nextPos p state.head_dir ∈ state.greens)
    (hsamp : sampleUntil (fun c =>
        (c ∈ state.greens.erase (nextPos p state.head_dir) ∨ c ∈ state.snake) ∧
        ((state.snake.length : Int) ≠ grid_size * grid_size)) draws = some g) :
    step_forward grid_size state draws =
      some { state with
              greens := state.greens.erase (nextPos p state.head_dir) ++ [g]
              snake := nextPos p state.head_dir :: state.snake } := by
  rw [hs] at hc hsamp
  simp only [step_forward, hs]
  rw [if_neg hc, if_pos hg]
  simp only [hsamp]

lemma step_red_eq (grid_size : Int) (state : GameState) (draws : List Pos)
    (p : Pos) (t : List Pos) (r : Pos) (hs : state.snake = p :: t)
    (hc : ¬ collides grid_size state.snake (nextPos p state.head_dir))
    (hg : nextPos p state.head_dir ∉ state.greens)
    (hr : state.red = nextPos p state.head_dir)
    (hsamp : sampleUntil (fun c => (c ∈ state.greens ∨ c ∈ state.snake) ∧
        ((state.snake.length : Int) ≠ grid_size * grid_size)) draws = some r)
    (hlen : state.snake.length ≠ 1) :
    step_forward grid_size state draws =
      some { state with
              red := r
              snake := nextPos p state.head_dir :: state.snake.dropLast.dropLast } := by
  rw [hs] at hc hsamp hlen
  simp only [step_forward, hs]
  rw [if_neg hc, if_neg hg, if_pos hr]
  simp only [hsamp]
  rw [if_neg hlen]

lemma game_over_update_self (state : GameState) (hgo : state.game_over = true) :
    { state with game_over := true } = state := by
  obtain ⟨sn, gr, rd, hd, go⟩ := state
  simp_all

lemma step_red_none (grid_size : Int) (state : GameState) (draws : List Pos)
    (p : Pos) (t : List Pos) (hs : state.snake = p :: t)
    (hc : ¬ collides grid_size state.snake (nextPos p state.head_dir))
    (hg : nextPos p state.head_dir ∉ state.greens)
    (hr : state.red = nextPos p state.head_dir)
    (hsamp : sampleUntil (fun c => (c ∈ state.greens ∨ c ∈ state.snake) ∧
        ((state.snake.length : Int) ≠ grid_size * grid_size)) draws = none) :
    step_forward grid_size state draws = none := by
  rw [hs] at hc hsamp
  simp only [step_forward, hs]
  rw [if_neg hc, if_neg hg, if_pos hr]
  simp only [hsamp]

/-- C5: for every tick whose next head cell is out of bounds on either axis or
lies on a snake cell, step_forward sets game_over to true and leaves snake,
greens, red (and head_dir) exactly equal to their pre-tick values. -/
theorem collision_sets_game_over_only (grid_size : Int) (state : GameState)
    (draws : List Pos) (p : Pos) (t : List Pos)
    (hs : state.snake = p :: t)
    (hc : collides grid_size state.snake (nextPos p state.head_dir)) :
    step_forward grid_size state draws = some { state with game_over := true } :=
  step_collision_eq grid_size state draws p t hs hc

theorem collision_sets_game_over_only_witness :
    step_forward 10 ⟨[(0, 0), (0, 1)], [(3, 3), (4, 4)], (2, 2), Dir.UP, false⟩ [] =
      some ⟨[(0, 0), (0, 1)], [(3, 3), (4, 4)], (2, 2), Dir.UP, true⟩ :=
  collision_sets_game_over_only 10
    ⟨[(0, 0), (0, 1)], [(3, 3), (4, 4)], (2, 2), Dir.UP, false⟩
    [] (0, 0) [(0, 1)] rfl (by decide)

/-- C6: in every reachable state (after init_board and any sequence of
step_forward and change_dir calls) the snake list contains no duplicate
positions: the initial walk rejects revisited cells, and every step branch
prepends a cell that is not on the pre-move snake to a sublist of it. -/
theorem reachable_snake_nodup (grid_size : Int) (s : GameState)
    (h : Reachable grid_size s) : s.snake.Nodup := by
  induction h with
  | init pd dd s1 hin hinit => exact init_board_some_nodup grid_size pd dd s1 hinit
  | step s1 draws s2 hr hin hstep ih =>
    exact step_forward_preserves_nodup grid_size s1 s2 draws hstep ih
  | dir s1 d hr ih =>
    rw [change_dir_snake]
    exact ih

theorem reachable_snake_nodup_witness : s0C2.snake.Nodup :=
  reachable_snake_nodup 10 s0C2
    (Reachable.init [(0, 0), (5, 4), (9, 9), (5, 5)] [Dir.DOWN, Dir.DOWN] s0C2
      (by decide) (by decide))

/-- C1 (counterexample): a state with game_over already true whose pending move
lands on a free cell is mutated by step_forward: the source has no game_over
guard, refuting the claim that every terminal state is returned unchanged. -/
theorem step_on_terminal_state_mutates :
    step_forward 10 termState [] ≠ some termState := by decide

/-- C1 (amended): step_forward has no game_over guard, so a terminal state can
be mutated by a further step; what does hold is that any state, in particular
a terminal one, whose pending move collides (out of bounds or onto the snake)
is returned unchanged, since the collision branch only re-sets game_over.
A collision leaves snake and head_dir untouched, so every state made terminal
by a collision keeps colliding and is a fixed point of step_forward. -/
theorem step_terminal_collision_noop (grid_size : Int) (state : GameState)
    (draws : List Pos) (p : Pos) (t : List Pos)
    (hgo : state.game_over = true) (hs : state.snake = p :: t)
    (hc : collides grid_size state.snake (nextPos p state.head_dir)) :
    step_forward grid_size state draws = some state := by
  rw [step_collision_eq grid_size state draws p t hs hc,
    game_over_update_self state hgo]

theorem step_terminal_collision_noop_witness :
    step_forward 10 termWallState [] = some termWallState :=
  step_terminal_collision_noop 10 termWallState [] (0, 0) [(0, 1)] rfl rfl (by decide)

/-- C4 (counterexample): eating the red item with a length-3 snake yields a
length-2 snake, not the claimed 3 - 2 = 1: the source drops the last two cells
of the old list but prepends the new head, a net decrease of one. -/
theorem shrink_length_not_minus_two :
    step_forward 10 cState [(9, 9)] = some cStateAfter ∧
    cState.snake.length = 3 ∧
    cStateAfter.snake.length ≠ cState.snake.length - 2 := by decide

/-- C4 (amended): for every tick in which the head moves onto the shrink item
and the pre-state snake length exceeds 1, the post-state snake length equals
the pre-state length minus one (new head prepended, last two cells of the old
list dropped). -/
theorem shrink_decreases_length_by_one (grid_size : Int) (state s2 : GameState)
    (draws : List Pos) (p : Pos) (t : List Pos)
    (hs : state.snake = p :: t)
    (hc : ¬ collides grid_size state.snake (nextPos p state.head_dir))
    (hg : nextPos p state.head_dir ∉ state.greens)
    (hr : state.red = nextPos p state.head_dir)
    (hlen : 1 < state.snake.length)
    (hstep : step_forward grid_size state draws = some s2) :
    s2.snake.length = state.snake.length - 1 := by
  cases hsamp : sampleUntil (fun c => (c ∈ state.greens ∨ c ∈ state.snake) ∧
      ((state.snake.length : Int) ≠ grid_size * grid_size)) draws with
  | none =>
    rw [step_red_none grid_size state draws p t hs hc hg hr hsamp] at hstep
    cases hstep
  | some r =>
    have hne1 : state.snake.length ≠ 1 := by omega
    rw [step_red_eq grid_size state draws p t r hs hc hg hr hsamp hne1] at hstep
    injection hstep with h2
    subst h2
    rw [hs] at hlen ⊢
    simp only [List.length_cons] at hlen
    simp [List.length_dropLast]
    omega

theorem shrink_decreases_length_by_one_witness :
    cStateAfter.snake.length = cState.snake.length - 1 :=
  shrink_decreases_length_by_one 10 cState cStateAfter [(9, 9)] (5, 5)
    [(5, 6), (5, 7)] rfl (by decide) (by decide) (by decide) (by decide) (by decide)

/-- C2: refuted by the code. The state s1C2 is reachable (one init_board run
with in-range draws followed by one step_forward with the in-range replacement
draw (5,4)), yet the green item at (5,4) lies on a snake cell: the replacement
loop of the growth branch checks membership in the pre-move snake only, so it
can place the relocated item on the new head cell. -/
theorem reachable_state_green_on_snake :
    Reachable 10 s1C2 ∧ (5, 4) ∈ s1C2.greens ∧ (5, 4) ∈ s1C2.snake := by
  refine ⟨?_, by decide, by decide⟩
  refine Reachable.step s0C2 [(5, 4)] s1C2 ?_ (by decide) (by decide)
  exact Reachable.init [(0, 0), (5, 4), (9, 9), (5, 5)] [Dir.DOWN, Dir.DOWN] s0C2
    (by decide) (by decide)

/-- C3: at this growth tick the length part of the claim holds (3 becomes 4),
but the relocated green equals the new head cell (5,4), which is on the new
snake: the replacement draw is validated against the pre-move snake only, so
the relocated item is not disjoint from the new snake. -/
theorem growth_tick_relocates_green_onto_new_head :
    step_forward 10 s0C2 [(5, 4)] = some s1C2 ∧
    s1C2.snake.length = s0C2.snake.length + 1 ∧
    s1C2.snake.head? = some (5, 4) ∧ (5, 4) ∈ s1C2.greens := by decide

/-- C7 (counterexample): on a state whose snake list length equals gridSize²
(2-by-2 grid) consuming the green at (1,0), step_forward still assigns a
replacement green, namely the unchecked first draw (0,0), which even lies on
the snake: the item is not absent from the post-tick state. -/
theorem full_board_item_not_absent :
    step_forward 2 fullState [(0, 0)] = some fullStateAfter ∧
    fullState.snake.length = 2 * 2 ∧
    fullStateAfter.greens = [(0, 0)] ∧ (0, 0) ∈ fullStateAfter.snake := by decide

/-- C7 (amended): when the snake list length equals gridSize² at the moment a
growth or shrink item is consumed, the rejection loop is bypassed but the
placement is not skipped: the first random draw is assigned unconditionally,
so a replacement item is present (possibly overlapping the snake) in the
post-tick state. With a duplicate-free snake this situation is unreachable,
since a board-filling snake makes every next cell collide. -/
theorem full_board_first_draw_assigned (grid_size : Int) (state : GameState)
    (d : Pos) (rest : List Pos) (p : Pos) (t : List Pos)
    (hs : state.snake = p :: t)
    (hfull : (state.snake.length : Int) = grid_size * grid_size)
    (hc : ¬ collides grid_size state.snake (nextPos p state.head_dir)) :
    (nextPos p state.head_dir ∈ state.greens →
      step_forward grid_size state (d :: rest) =
        some { state with
                greens := state.greens.erase (nextPos p state.head_dir) ++ [d]
                snake := nextPos p state.head_dir :: state.snake }) ∧
    (nextPos p state.head_dir ∉ state.greens →
      state.red = nextPos p state.head_dir →
      state.snake.length ≠ 1 →
      step_forward grid_size state (d :: rest) =
        some { state with
                red := d
                snake := nextPos p state.head_dir :: state.snake.dropLast.dropLast }) := by
  constructor
  · intro hg
    refine step_green_eq grid_size state (d :: rest) p t d hs hc hg ?_
    exact sampleUntil_first _ d rest (by simp [hfull])
  · intro hg hr hlen
    refine step_red_eq grid_size state (d :: rest) p t d hs hc hg hr ?_ hlen
    exact sampleUntil_first _ d rest (by simp [hfull])

theorem full_board_first_draw_assigned_witness :
    step_forward 2 fullState [(0, 0)] = some fullStateAfter ∧
    step_forward 2 redFullState [(0, 0)] =
      some ⟨[(1, 0), (0, 0), (0, 1)], [(0, 1)], (0, 0), Dir.RIGHT, false⟩ := by
  constructor
  · exact (full_board_first_draw_assigned 2 fullState (0, 0) [] (0, 0)
      [(0, 1), (1, 1), (0, 1)] rfl (by decide) (by decide)).1 (by decide)
  · exact (full_board_first_draw_assigned 2 redFullState (0, 0) [] (0, 0)
      [(0, 1), (1, 1), (0, 1)] rfl (by decide) (by decide)).2
      (by decide) (by decide) (by decide)

/-- C8 (counterexample): on a single-segment snake, change_dir is not a no-op:
get_neck_dir returns none, the requested direction is unequal to none, so
head_dir is overwritten. -/
theorem short_snake_set_direction_not_noop :
    change_dir shortState Dir.DOWN ≠ shortState := by decide

/-- C8 (amended): for every state whose snake has fewer than 2 segments,
change_dir d always sets head_dir to d (the neck direction is none, so the
guard passes for every requested direction); all other fields are unchanged. -/
theorem short_snake_set_direction_applies (state : GameState) (d : Dir)
    (h : state.snake.length < 2) :
    change_dir state d = { state with head_dir := d } := by
  have hne : get_neck_dir state.snake ≠ some d := by
    cases hsn : state.snake with
    | nil => simp [get_neck_dir]
    | cons a l =>
      cases l with
      | nil => simp [get_neck_dir]
      | cons b l2 =>
        rw [hsn, List.length_cons, List.length_cons] at h
        omega
  unfold change_dir
  rw [if_pos hne]

theorem short_snake_set_direction_applies_witness :
    change_dir shortState Dir.DOWN = { shortState with head_dir := Dir.DOWN } :=
  short_snake_set_direction_applies shortState Dir.DOWN (by decide)

/-- C9: the code does not report the gridSize-below-3 precondition violation
to the caller; on gridSize 1 init_board never returns at all: every in-range
draw equals the cell (0,0) already taken by the first green, so the rejection
loop for the second green never terminates. In the embedding the result is
none for every finite supply of in-range draws, so no error value (and no
board) is ever produced. -/
theorem init_board_grid_one_never_returns (pd : List Pos) (dd : List Dir)
    (h : drawsInRange 1 pd) : init_board 1 pd dd = none := by
  cases pd with
  | nil => rfl
  | cons g1 rest =>
    have hall : ∀ x ∈ rest, x = g1 := by
      intro x hx
      have h1 := h g1 (List.mem_cons_self g1 rest)
      have h2 := h x (List.mem_cons_of_mem g1 hx)
      obtain ⟨x1, x2⟩ := x
      obtain ⟨g11, g12⟩ := g1
      simp only [inRange] at h1 h2
      have e1 : x1 = g11 := by omega
      have e2 : x2 = g12 := by omega
      rw [e1, e2]
    have hsamp : sampleUntilR (fun g => g = g1) rest = none :=
      sampleUntilR_none_of_all _ rest hall
    simp only [init_board, hsamp]

theorem init_board_grid_one_never_returns_witness :
    init_board 1 [(0, 0), (0, 0), (0, 0)] [] = none :=
  init_board_grid_one_never_returns [(0, 0), (0, 0), (0, 0)] [] (by decide)

/-- C10: in the plain-move case (non-terminal state, next head cell in bounds,
not on the snake, not a green cell, not the red cell) the only field that
changes is the snake: the next cell is prepended and the last segment dropped,
preserving the length; greens, red, head_dir and game_over keep their pre-tick
values. -/
theorem plain_move_changes_only_snake (grid_size : Int) (state : GameState)
    (draws : List Pos) (p : Pos) (t : List Pos)
    (hgo : state.game_over = false)
    (hs : state.snake = p :: t)
    (hc : ¬ collides grid_size state.snake (nextPos p state.head_dir))
    (hg : nextPos p state.head_dir ∉ state.greens)
    (hr : state.red ≠ nextPos p state.head_dir) :
    step_forward grid_size state draws =
      some { state with snake := nextPos p state.head_dir :: state.snake.dropLast } ∧
    (nextPos p state.head_dir :: state.snake.dropLast).length = state.snake.length := by
  refine ⟨step_plain_eq grid_size state draws p t hs hc hg hr, ?_⟩
  rw [hs]
  simp [List.length_dropLast]

theorem plain_move_changes_only_snake_witness :
    step_forward 10 plainState [] =
      some { plainState with
              snake := nextPos (5, 5) plainState.head_dir :: plainState.snake.dropLast } ∧
    (nextPos (5, 5) plainState.head_dir :: plainState.snake.dropLast).length =
      plainState.snake.length :=
  plain_move_changes_only_snake 10 plainState [] (5, 5) [(5, 6), (5, 7)] rfl rfl
    (by decide) (by decide) (by decide)
